import Mathlib

/-!
Shallow embedding of the drv8830 register codec (src/lib.rs).

The crate exposes two registers of the DRV8830 motor driver: a Control
register (direction bits and output-voltage code) and a Fault register
(status flags).  `Control::write` encodes the target voltage as
`(vout.clamp(1.29, 5.06) / 0.0803) as u8`, packs it with the two direction
bits, and issues exactly one bus transaction; `Fault` packs and unpacks six
flag bits of one byte.  The crate has an rpi variant (SMBus register calls)
and an embedded variant (raw I2C write / write-read); both are modelled.

Rust `f32` values are modelled by the type `F32` below: NaN and the two
infinities are represented explicitly and finite values are carried as exact
rationals.  The finite literals of the source (1.29, 5.06, 0.0803, 3.2, 1.0)
are represented by their decimal values, and finite arithmetic is exact
rational arithmetic.
-/

/-- Model of a Rust f32 value: NaN, an infinity, or a finite value carried
exactly as a rational number. -/
inductive F32 where
  | nan : F32
  | inf : F32
  | neginf : F32
  | finite (q : ℚ) : F32
deriving DecidableEq

/-- Rust `f32::clamp(lo, hi)` for the finite bounds used at the call sites:
NaN propagates, minus infinity and values below `lo` go to `lo`, plus
infinity and values above `hi` go to `hi`, other values pass through. -/
def F32.clamp : F32 → ℚ → ℚ → F32
  | .nan, _, _ => .nan
  | .neginf, lo, _ => .finite lo
  | .inf, _, hi => .finite hi
  | .finite q, lo, hi => .finite (if q < lo then lo else if hi < q then hi else q)

/-- Rust f32 division by a positive finite constant (the source divides the
clamped voltage by the step constant 0.0803). -/
def F32.divPos : F32 → ℚ → F32
  | .nan, _ => .nan
  | .neginf, _ => .neginf
  | .inf, _ => .inf
  | .finite q, c => .finite (q / c)

/-- Rust `as u8` saturating cast from f32: NaN and negative values map to 0,
values at or above 255 saturate to 255, other values truncate toward zero. -/
def F32.toU8 : F32 → Nat
  | .nan => 0
  | .neginf => 0
  | .inf => 255
  | .finite q => min 255 (Int.toNat ⌊q⌋)

/-- The Control register value: two direction bits, the target output
voltage in volts, and the (unused by the codec) public speed multiplier. -/
structure Control where
  in1 : Bool
  in2 : Bool
  vout : F32
  speed_mult : F32
deriving DecidableEq

/-- Control register address constant (`Control::ADDRESS = 0x00`). -/
def Control.ADDRESS : Nat := 0x00

/-- Preset `Control::COAST`: in1 = 0, in2 = 0, vout = 3.2 V, speed_mult = 1.0. -/
def Control.COAST : Control :=
  { in1 := false, in2 := false, vout := F32.finite 3.2, speed_mult := F32.finite 1.0 }

/-- Preset `Control::REVERSE`: in1 = 0, in2 = 1, vout = 3.2 V, speed_mult = 1.0. -/
def Control.REVERSE : Control :=
  { in1 := false, in2 := true, vout := F32.finite 3.2, speed_mult := F32.finite 1.0 }

/-- Preset `Control::FORWARD`: in1 = 1, in2 = 0, vout = 3.2 V, speed_mult = 1.0. -/
def Control.FORWARD : Control :=
  { in1 := true, in2 := false, vout := F32.finite 3.2, speed_mult := F32.finite 1.0 }

/-- Preset `Control::BRAKE`: in1 = 1, in2 = 1, vout = 3.2 V, speed_mult = 1.0. -/
def Control.BRAKE : Control :=
  { in1 := true, in2 := true, vout := F32.finite 3.2, speed_mult := F32.finite 1.0 }

/-- The voltage code of `Control::write`:
`let voltage_enc = (self.vout.clamp(1.29, 5.06) / 0.0803) as u8`. -/
def Control.voltage_enc (c : Control) : Nat :=
  F32.toU8 (F32.divPos (F32.clamp c.vout 1.29 5.06) 0.0803)

/-- The encoded Control register byte of `Control::write`:
`let write_reg = (voltage_enc << 2) | (u8::from(self.in2) << 1) | u8::from(self.in1)`.
The u8 shift discards bits shifted past bit 7, hence the reduction mod 256. -/
def Control.write_reg (c : Control) : Nat :=
  ((c.voltage_enc <<< 2) % 256) |||
    ((if c.in2 then 1 else 0) <<< 1) ||| (if c.in1 then 1 else 0)

/-- One raw bus transaction, as issued by the two transport back ends of the
source: an SMBus register write or register read (rpi feature), or a plain
I2C write or write-then-read addressed to a chip (embedded feature). -/
inductive I2cOp where
  | smbus_write_byte (reg : Nat) (val : Nat) : I2cOp
  | smbus_read_byte (reg : Nat) : I2cOp
  | i2c_write (chip_addr : Nat) (data : List Nat) : I2cOp
  | i2c_write_read (chip_addr : Nat) (data : List Nat) (read_len : Nat) : I2cOp
deriving DecidableEq

/-- A register operation as the sequence of transport calls it makes: either
a pure result, or one transport call whose numeric response feeds the rest of
the operation.  The `?` operator of the source corresponds to `Prog.run`
aborting on the first transport error. -/
inductive Prog (α : Type) where
  | pure (a : α) : Prog α
  | bind (op : I2cOp) (k : Nat → Prog α) : Prog α

/-- Run a register operation against a transport handler; a transport error
aborts the operation and is returned to the caller unchanged, exactly as the
`?` operator propagates it in the source. -/
def Prog.run {ε α : Type} (h : I2cOp → Except ε Nat) : Prog α → Except ε α
  | .pure a => Except.ok a
  | .bind op k =>
    match h op with
    | Except.error e => Except.error e
    | Except.ok v => Prog.run h (k v)

/-- The list of transport calls a register operation issues when run against
a transport handler. -/
def Prog.calls {ε α : Type} (h : I2cOp → Except ε Nat) : Prog α → List I2cOp
  | .pure _ => []
  | .bind op k =>
    op :: (match h op with
      | Except.error _ => []
      | Except.ok v => Prog.calls h (k v))

/-- `Control::write` on the rpi transport:
`i2c.smbus_write_byte(Self::ADDRESS, write_reg)?` then `Ok(())`. -/
def Control.write_rpi (c : Control) : Prog Unit :=
  Prog.bind (I2cOp.smbus_write_byte Control.ADDRESS c.write_reg) (fun _ => Prog.pure ())

/-- `Control::write` on the embedded transport:
`i2c.write(chip_addr, &[Self::ADDRESS, write_reg])?` then `Ok(())`. -/
def Control.write_embedded (c : Control) (chip_addr : Nat) : Prog Unit :=
  Prog.bind (I2cOp.i2c_write chip_addr [Control.ADDRESS, c.write_reg]) (fun _ => Prog.pure ())

/-- The Fault register value: six independent flag bits. -/
structure Fault where
  clear : Bool
  i_limit : Bool
  ots : Bool
  uvlo : Bool
  ocp : Bool
  fault : Bool
deriving DecidableEq

/-- Fault register address constant (`Fault::ADDRESS = 0x01`). -/
def Fault.ADDRESS : Nat := 0x01

/-- The encoded Fault register byte of `Fault::write`:
`clear << 7 | i_limit << 4 | ots << 3 | uvlo << 2 | ocp << 1 | fault`. -/
def Fault.write_buf (f : Fault) : Nat :=
  ((if f.clear then 1 else 0) <<< 7) ||| ((if f.i_limit then 1 else 0) <<< 4) |||
    ((if f.ots then 1 else 0) <<< 3) ||| ((if f.uvlo then 1 else 0) <<< 2) |||
    ((if f.ocp then 1 else 0) <<< 1) ||| (if f.fault then 1 else 0)

/-- Decoding of a raw Fault register byte in `Fault::new`.  The raw value in
the source is a u8, modelled here by reducing the handler response mod 256:
`clear = read_buf >> 7 != 0`, `i_limit = (read_buf >> 4) & 1 != 0`,
`ots = (read_buf >> 3) & 1 != 0`, `uvlo = (read_buf >> 2) & 1 != 0`,
`ocp = (read_buf >> 1) & 1 != 0`, `fault = read_buf & 1 != 0`. -/
def Fault.of_byte (b : Nat) : Fault :=
  let read_buf := b % 256
  { clear := decide ((read_buf >>> 7) ≠ 0)
    i_limit := decide (((read_buf >>> 4) &&& 1) ≠ 0)
    ots := decide (((read_buf >>> 3) &&& 1) ≠ 0)
    uvlo := decide (((read_buf >>> 2) &&& 1) ≠ 0)
    ocp := decide (((read_buf >>> 1) &&& 1) ≠ 0)
    fault := decide ((read_buf &&& 1) ≠ 0) }

/-- `Fault::new` on the rpi transport:
`let read_buf = i2c.smbus_read_byte(Self::ADDRESS)?` then decode. -/
def Fault.read_rpi : Prog Fault :=
  Prog.bind (I2cOp.smbus_read_byte Fault.ADDRESS) (fun b => Prog.pure (Fault.of_byte b))

/-- `Fault::new` on the embedded transport:
`i2c.write_read(chip_addr, &[Self::ADDRESS], &mut read_buf)?` then decode the
single returned byte. -/
def Fault.read_embedded (chip_addr : Nat) : Prog Fault :=
  Prog.bind (I2cOp.i2c_write_read chip_addr [Fault.ADDRESS] 1)
    (fun b => Prog.pure (Fault.of_byte b))

/-- `Fault::write` on the rpi transport:
`i2c.smbus_write_byte(Self::ADDRESS, write_buf)?` then `Ok(())`. -/
def Fault.write_rpi (f : Fault) : Prog Unit :=
  Prog.bind (I2cOp.smbus_write_byte Fault.ADDRESS f.write_buf) (fun _ => Prog.pure ())

/-- `Fault::write` on the embedded transport:
`i2c.write(chip_addr, &[Self::ADDRESS, write_buf])?` then `Ok(())`. -/
def Fault.write_embedded (f : Fault) (chip_addr : Nat) : Prog Unit :=
  Prog.bind (I2cOp.i2c_write chip_addr [Fault.ADDRESS, f.write_buf]) (fun _ => Prog.pure ())

/-- The clamped-voltage quotient of the encoder is below 64, for every finite
input voltage. -/
lemma clamped_div_lt (x : ℚ) :
    ⌊(if x < 1.29 then (1.29 : ℚ) else if 5.06 < x then 5.06 else x) / 0.0803⌋ < 64 := by
  have hm : (if x < 1.29 then (1.29 : ℚ) else if 5.06 < x then 5.06 else x) ≤ 5.06 := by
    split_ifs with h1 h2
    · norm_num
    · norm_num
    · exact le_of_not_lt h2
  apply Int.floor_lt.mpr
  rw [div_lt_iff₀ (by norm_num : (0 : ℚ) < 0.0803)]
  push_cast
  nlinarith

/-- On a finite input voltage the voltage code is the floor of the clamped
voltage divided by the 0.0803 step (the saturation of the u8 cast never
fires, because the quotient is below 64). -/
lemma Control.voltage_enc_finite (c : Control) (x : ℚ) (hx : c.vout = F32.finite x) :
    c.voltage_enc
      = Int.toNat ⌊(if x < 1.29 then (1.29 : ℚ) else if 5.06 < x then 5.06 else x) / 0.0803⌋ := by
  have h := clamped_div_lt x
  simp only [Control.voltage_enc, hx, F32.clamp, F32.divPos, F32.toU8]
  omega

/-- The voltage code never exceeds 63, for every modelled f32 input
voltage including NaN and the infinities. -/
lemma Control.voltage_enc_le (c : Control) : c.voltage_enc ≤ 63 := by
  cases hv : c.vout with
  | nan => simp [Control.voltage_enc, hv, F32.clamp, F32.divPos, F32.toU8]
  | inf =>
    have h : ⌊(5.06 : ℚ) / 0.0803⌋ < 64 := by
      apply Int.floor_lt.mpr
      rw [div_lt_iff₀ (by norm_num : (0 : ℚ) < 0.0803)]
      norm_num
    simp only [Control.voltage_enc, hv, F32.clamp, F32.divPos, F32.toU8]
    omega
  | neginf =>
    have h : ⌊(1.29 : ℚ) / 0.0803⌋ < 64 := by
      apply Int.floor_lt.mpr
      rw [div_lt_iff₀ (by norm_num : (0 : ℚ) < 0.0803)]
      norm_num
    simp only [Control.voltage_enc, hv, F32.clamp, F32.divPos, F32.toU8]
    omega
  | finite q =>
    have h := clamped_div_lt q
    rw [Control.voltage_enc_finite c q hv]
    omega

/-- The encoded Control byte as plain arithmetic: since the voltage code is
at most 63, the u8 shift does not wrap and the or of the disjoint bit fields
is a sum. -/
lemma Control.write_reg_eq (c : Control) :
    c.write_reg = 4 * c.voltage_enc + (if c.in2 then 2 else 0) + (if c.in1 then 1 else 0) := by
  have he : c.voltage_enc ≤ 63 := c.voltage_enc_le
  unfold Control.write_reg
  revert he
  generalize c.voltage_enc = e
  intro he
  interval_cases e <;> cases h1 : c.in1 <;> cases h2 : c.in2 <;> decide

/-- Bit 0 of the encoded Control byte is in1. -/
lemma Control.write_reg_testBit0 (c : Control) : c.write_reg.testBit 0 = c.in1 := by
  rw [Control.write_reg_eq]
  cases h1 : c.in1 <;> cases h2 : c.in2 <;> simp [Nat.testBit_to_div_mod] <;> omega

/-- Bit 1 of the encoded Control byte is in2. -/
lemma Control.write_reg_testBit1 (c : Control) : c.write_reg.testBit 1 = c.in2 := by
  rw [Control.write_reg_eq]
  cases h1 : c.in1 <;> cases h2 : c.in2 <;> simp [Nat.testBit_to_div_mod] <;> omega

/-- Bits 7:2 of the encoded Control byte are the voltage code. -/
lemma Control.write_reg_shiftRight2 (c : Control) : c.write_reg >>> 2 = c.voltage_enc := by
  rw [Control.write_reg_eq]
  cases h1 : c.in1 <;> cases h2 : c.in2 <;> simp [Nat.shiftRight_eq_div_pow] <;> omega

/-- The encoded Control byte depends only on in1, in2 and vout. -/
lemma Control.write_reg_congr (c₁ c₂ : Control) (h1 : c₁.in1 = c₂.in1)
    (h2 : c₁.in2 = c₂.in2) (he : c₁.voltage_enc = c₂.voltage_enc) :
    c₁.write_reg = c₂.write_reg := by
  unfold Control.write_reg
  rw [h1, h2, he]

/-- Running a one-call register operation returns the transport response with
a pure function applied on success; a transport error is returned unchanged. -/
lemma Prog.run_bind_pure {ε α : Type} (h : I2cOp → Except ε Nat) (op : I2cOp) (f : Nat → α) :
    Prog.run h (Prog.bind op (fun v => Prog.pure (f v))) = Except.map f (h op) := by
  unfold Prog.run
  cases hop : h op <;> simp [Except.map, Prog.run]

/-- A one-call register operation issues exactly that one transport call,
whatever the handler answers. -/
lemma Prog.calls_bind_pure {ε α : Type} (h : I2cOp → Except ε Nat) (op : I2cOp) (f : Nat → α) :
    Prog.calls h (Prog.bind op (fun v => Prog.pure (f v))) = [op] := by
  unfold Prog.calls
  cases hop : h op <;> simp [Prog.calls]

/-- The quotient 3.2 / 0.0803 of the preset voltage by the step truncates to 39. -/
lemma floor_32_div_step : ⌊(3.2 : ℚ) / 0.0803⌋ = 39 := by
  rw [Int.floor_eq_iff]
  norm_num

/-- Every preset carries vout = 3.2 V, which encodes to voltage code 39. -/
lemma Control.voltage_enc_of_vout32 (c : Control) (hx : c.vout = F32.finite 3.2) :
    c.voltage_enc = 39 := by
  rw [Control.voltage_enc_finite c 3.2 hx]
  have hif : (if (3.2 : ℚ) < 1.29 then (1.29 : ℚ) else if 5.06 < (3.2 : ℚ) then 5.06 else 3.2)
      = 3.2 := by norm_num
  rw [hif, floor_32_div_step]
  rfl

/-- The COAST preset encodes to byte 156 = 0x9C. -/
lemma Control.COAST_write_reg : Control.COAST.write_reg = 156 := by
  rw [Control.write_reg_eq, Control.voltage_enc_of_vout32 Control.COAST rfl]
  norm_num [Control.COAST]

/-- The REVERSE preset encodes to byte 158 = 0x9E. -/
lemma Control.REVERSE_write_reg : Control.REVERSE.write_reg = 158 := by
  rw [Control.write_reg_eq, Control.voltage_enc_of_vout32 Control.REVERSE rfl]
  norm_num [Control.REVERSE]

/-- The FORWARD preset encodes to byte 157 = 0x9D. -/
lemma Control.FORWARD_write_reg : Control.FORWARD.write_reg = 157 := by
  rw [Control.write_reg_eq, Control.voltage_enc_of_vout32 Control.FORWARD rfl]
  norm_num [Control.FORWARD]

/-- The BRAKE preset encodes to byte 159 = 0x9F. -/
lemma Control.BRAKE_write_reg : Control.BRAKE.write_reg = 159 := by
  rw [Control.write_reg_eq, Control.voltage_enc_of_vout32 Control.BRAKE rfl]
  norm_num [Control.BRAKE]

/-- C2: for every combination of the six Fault flags, decoding the byte
produced by the Fault encoder returns exactly the original flags, and the
reserved bits 5 and 6 of the encoded byte are 0. -/
theorem claim_C2 (f : Fault) :
    Fault.of_byte f.write_buf = f
      ∧ f.write_buf.testBit 5 = false ∧ f.write_buf.testBit 6 = false := by
  rcases f with ⟨b1, b2, b3, b4, b5, b6⟩
  cases b1 <;> cases b2 <;> cases b3 <;> cases b4 <;> cases b5 <;> cases b6 <;> decide

/-- C4: for every raw byte, decoding sets clear from bit 7, i_limit from
bit 4, ots from bit 3, uvlo from bit 2, ocp from bit 1 and fault from bit 0,
and the decoded value is unchanged when bits 5 and 6 are masked off. -/
theorem claim_C4 (b : Nat) (hb : b < 256) :
    (Fault.of_byte b).clear = b.testBit 7
      ∧ (Fault.of_byte b).i_limit = b.testBit 4
      ∧ (Fault.of_byte b).ots = b.testBit 3
      ∧ (Fault.of_byte b).uvlo = b.testBit 2
      ∧ (Fault.of_byte b).ocp = b.testBit 1
      ∧ (Fault.of_byte b).fault = b.testBit 0
      ∧ Fault.of_byte b = Fault.of_byte (b &&& 0x9F) := by
  revert hb
  revert b
  set_option maxRecDepth 8192 in decide

/-- C4 witness: the raw byte 0x6A (both reserved bits set, ots and ocp set)
decodes by bit position and ignores the reserved bits. -/
theorem claim_C4_witness :
    (Fault.of_byte 0x6A).clear = (0x6A : Nat).testBit 7
      ∧ (Fault.of_byte 0x6A).i_limit = (0x6A : Nat).testBit 4
      ∧ (Fault.of_byte 0x6A).ots = (0x6A : Nat).testBit 3
      ∧ (Fault.of_byte 0x6A).uvlo = (0x6A : Nat).testBit 2
      ∧ (Fault.of_byte 0x6A).ocp = (0x6A : Nat).testBit 1
      ∧ (Fault.of_byte 0x6A).fault = (0x6A : Nat).testBit 0
      ∧ Fault.of_byte 0x6A = Fault.of_byte (0x6A &&& 0x9F) :=
  claim_C4 0x6A (by decide)

/-- C3 counterexample: the COAST preset does not encode to byte 0x00; its
default vout of 3.2 V contributes voltage code 39 to bits 7:2, so the
encoded byte is 0x9C. -/
theorem claim_C3_counterexample :
    Control.COAST.write_reg = 0x9C ∧ Control.COAST.write_reg ≠ 0x00 := by
  have h := Control.COAST_write_reg
  exact ⟨h, by rw [h]; decide⟩

/-- C3 (amended): encoding the COAST preset produces the register byte 0x9C:
the voltage code 39 = floor(3.2 / 0.0803) derived from the preset's default
vout of 3.2 V occupies bits 7:2, and in1 = 0, in2 = 0 contribute 0 to the
low two bits. -/
theorem claim_C3_amended :
    Control.COAST.write_reg = 0x9C
      ∧ Control.COAST.write_reg >>> 2 = 39
      ∧ Control.COAST.write_reg % 4 = 0 := by
  have h := Control.COAST_write_reg
  refine ⟨h, ?_, ?_⟩ <;> rw [h] <;> decide

/-- C5: the four named presets fix (in1, in2) to COAST = (0,0),
REVERSE = (0,1), FORWARD = (1,0), BRAKE = (1,1) and default speed_mult to
1.0, the maximum of the normalized multiplier range; FORWARD and REVERSE
encode to bytes agreeing on bits 7:2 and differing in the low two bits, and
the four presets encode four mutually distinct (in1, in2) low-bit patterns. -/
theorem claim_C5 :
    (Control.COAST.in1 = false ∧ Control.COAST.in2 = false)
      ∧ (Control.REVERSE.in1 = false ∧ Control.REVERSE.in2 = true)
      ∧ (Control.FORWARD.in1 = true ∧ Control.FORWARD.in2 = false)
      ∧ (Control.BRAKE.in1 = true ∧ Control.BRAKE.in2 = true)
      ∧ Control.COAST.speed_mult = F32.finite 1
      ∧ Control.REVERSE.speed_mult = F32.finite 1
      ∧ Control.FORWARD.speed_mult = F32.finite 1
      ∧ Control.BRAKE.speed_mult = F32.finite 1
      ∧ Control.FORWARD.write_reg >>> 2 = Control.REVERSE.write_reg >>> 2
      ∧ Control.FORWARD.write_reg ≠ Control.REVERSE.write_reg
      ∧ Control.COAST.write_reg % 4 = 0
      ∧ Control.FORWARD.write_reg % 4 = 1
      ∧ Control.REVERSE.write_reg % 4 = 2
      ∧ Control.BRAKE.write_reg % 4 = 3 := by
  have hc := Control.COAST_write_reg
  have hr := Control.REVERSE_write_reg
  have hf := Control.FORWARD_write_reg
  have hb := Control.BRAKE_write_reg
  refine ⟨⟨rfl, rfl⟩, ⟨rfl, rfl⟩, ⟨rfl, rfl⟩, ⟨rfl, rfl⟩, ?_, ?_, ?_, ?_, ?_, ?_, ?_, ?_, ?_, ?_⟩
  · norm_num [Control.COAST]
  · norm_num [Control.REVERSE]
  · norm_num [Control.FORWARD]
  · norm_num [Control.BRAKE]
  · rw [hf, hr]; decide
  · rw [hf, hr]; decide
  · rw [hc]
  · rw [hf]
  · rw [hr]
  · rw [hb]

/-- C1: for every Control value whose target voltage is a finite value x,
the encoded register byte has bits 7:2 equal to the 6-bit voltage code
floor(clamp(x, 1.29, 5.06) / 0.0803) (truncation of the clamped target
voltage by the step, not rounding), bit 1 equal to in2 and bit 0 equal to
in1, and the write operation transmits exactly this byte to register address
0x00: one smbus_write_byte(0x00, byte) call on the rpi transport, one
i2c_write of [0x00, byte] on the embedded transport. -/
theorem claim_C1 {ε : Type} (c : Control) (x : ℚ) (hx : c.vout = F32.finite x)
    (h : I2cOp → Except ε Nat) (chip_addr : Nat) :
    c.write_reg >>> 2
        = Int.toNat ⌊(if x < 1.29 then (1.29 : ℚ) else if 5.06 < x then 5.06 else x) / 0.0803⌋
      ∧ c.write_reg < 256
      ∧ c.write_reg.testBit 1 = c.in2
      ∧ c.write_reg.testBit 0 = c.in1
      ∧ Prog.calls h c.write_rpi = [I2cOp.smbus_write_byte Control.ADDRESS c.write_reg]
      ∧ Prog.calls h (c.write_embedded chip_addr)
          = [I2cOp.i2c_write chip_addr [Control.ADDRESS, c.write_reg]] := by
  refine ⟨?_, ?_, Control.write_reg_testBit1 c, Control.write_reg_testBit0 c,
    Prog.calls_bind_pure h _ _, Prog.calls_bind_pure h _ _⟩
  · rw [Control.write_reg_shiftRight2, Control.voltage_enc_finite c x hx]
  · have he := c.voltage_enc_le
    rw [Control.write_reg_eq]
    split_ifs <;> omega

/-- C1 witness: the FORWARD preset (finite vout 3.2 V) under a transport
handler that always succeeds, with chip address 0x60. -/
theorem claim_C1_witness :
    Control.FORWARD.write_reg >>> 2
        = Int.toNat ⌊(if (3.2 : ℚ) < 1.29 then (1.29 : ℚ)
            else if 5.06 < (3.2 : ℚ) then 5.06 else (3.2 : ℚ)) / 0.0803⌋
      ∧ Control.FORWARD.write_reg < 256
      ∧ Control.FORWARD.write_reg.testBit 1 = Control.FORWARD.in2
      ∧ Control.FORWARD.write_reg.testBit 0 = Control.FORWARD.in1
      ∧ Prog.calls (fun _ => (Except.ok 0 : Except Unit Nat)) Control.FORWARD.write_rpi
          = [I2cOp.smbus_write_byte Control.ADDRESS Control.FORWARD.write_reg]
      ∧ Prog.calls (fun _ => (Except.ok 0 : Except Unit Nat)) (Control.FORWARD.write_embedded 0x60)
          = [I2cOp.i2c_write 0x60 [Control.ADDRESS, Control.FORWARD.write_reg]] :=
  claim_C1 Control.FORWARD 3.2 rfl (fun _ => Except.ok 0) 0x60

/-- C6: out-of-range voltages never error, they clamp: for any Control
value, an input voltage of 10.0 encodes to exactly the byte of an input of
5.06 (the upper bound V_MAX), an input of 0.0 encodes to exactly the byte of
an input of 1.29 (the lower bound V_MIN), and every finite input voltage
clamps into [1.29, 5.06] before encoding. -/
theorem claim_C6 (c : Control) (x : ℚ) :
    ({c with vout := F32.finite 10} : Control).write_reg
        = ({c with vout := F32.finite 5.06} : Control).write_reg
      ∧ ({c with vout := F32.finite 0} : Control).write_reg
          = ({c with vout := F32.finite 1.29} : Control).write_reg
      ∧ ∃ m : ℚ, F32.clamp (F32.finite x) 1.29 5.06 = F32.finite m
          ∧ 1.29 ≤ m ∧ m ≤ 5.06 := by
  refine ⟨?_, ?_, ?_⟩
  · refine Control.write_reg_congr ({c with vout := F32.finite 10})
      ({c with vout := F32.finite 5.06}) rfl rfl ?_
    norm_num [Control.voltage_enc, F32.clamp]
  · refine Control.write_reg_congr ({c with vout := F32.finite 0})
      ({c with vout := F32.finite 1.29}) rfl rfl ?_
    norm_num [Control.voltage_enc, F32.clamp]
  · refine ⟨if x < 1.29 then (1.29 : ℚ) else if 5.06 < x then 5.06 else x, rfl, ?_, ?_⟩
    · split_ifs with h1 h2
      · norm_num
      · norm_num
      · exact le_of_not_lt h1
    · split_ifs with h1 h2
      · norm_num
      · norm_num
      · exact le_of_not_lt h2

/-- C7: every register operation of the codec issues exactly one transport
call, and its result is the transport response with the pure decoding
applied on success; in particular a transport error is returned to the
caller unchanged, with no wrapping, interpretation or retry.  This holds for
Control write, Fault write and Fault read, on both transports. -/
theorem claim_C7 {ε : Type} (h : I2cOp → Except ε Nat) (c : Control) (f : Fault)
    (chip_addr : Nat) :
    Prog.run h c.write_rpi
        = Except.map (fun _ => ()) (h (I2cOp.smbus_write_byte Control.ADDRESS c.write_reg))
      ∧ Prog.calls h c.write_rpi = [I2cOp.smbus_write_byte Control.ADDRESS c.write_reg]
      ∧ Prog.run h (c.write_embedded chip_addr)
          = Except.map (fun _ => ())
              (h (I2cOp.i2c_write chip_addr [Control.ADDRESS, c.write_reg]))
      ∧ Prog.calls h (c.write_embedded chip_addr)
          = [I2cOp.i2c_write chip_addr [Control.ADDRESS, c.write_reg]]
      ∧ Prog.run h f.write_rpi
          = Except.map (fun _ => ()) (h (I2cOp.smbus_write_byte Fault.ADDRESS f.write_buf))
      ∧ Prog.calls h f.write_rpi = [I2cOp.smbus_write_byte Fault.ADDRESS f.write_buf]
      ∧ Prog.run h (f.write_embedded chip_addr)
          = Except.map (fun _ => ())
              (h (I2cOp.i2c_write chip_addr [Fault.ADDRESS, f.write_buf]))
      ∧ Prog.calls h (f.write_embedded chip_addr)
          = [I2cOp.i2c_write chip_addr [Fault.ADDRESS, f.write_buf]]
      ∧ Prog.run h Fault.read_rpi
          = Except.map Fault.of_byte (h (I2cOp.smbus_read_byte Fault.ADDRESS))
      ∧ Prog.calls h Fault.read_rpi = [I2cOp.smbus_read_byte Fault.ADDRESS]
      ∧ Prog.run h (Fault.read_embedded chip_addr)
          = Except.map Fault.of_byte (h (I2cOp.i2c_write_read chip_addr [Fault.ADDRESS] 1))
      ∧ Prog.calls h (Fault.read_embedded chip_addr)
          = [I2cOp.i2c_write_read chip_addr [Fault.ADDRESS] 1] :=
  ⟨Prog.run_bind_pure h _ _, Prog.calls_bind_pure h _ _,
    Prog.run_bind_pure h _ _, Prog.calls_bind_pure h _ _,
    Prog.run_bind_pure h _ _, Prog.calls_bind_pure h _ _,
    Prog.run_bind_pure h _ _, Prog.calls_bind_pure h _ _,
    Prog.run_bind_pure h _ _, Prog.calls_bind_pure h _ _,
    Prog.run_bind_pure h _ _, Prog.calls_bind_pure h _ _⟩

/-- C8: encoding with any speed_mult at most 0 produces the same byte as
with speed_mult = 0, and encoding with any speed_mult at least 1 produces
the same byte as with speed_mult = 1 (the codec reads only in1, in2 and
vout, so the public speed_mult field never changes the byte). -/
theorem claim_C8 (c : Control) (s t : ℚ) (_hs : s ≤ 0) (_ht : 1 ≤ t) :
    ({c with speed_mult := F32.finite s} : Control).write_reg
        = ({c with speed_mult := F32.finite 0} : Control).write_reg
      ∧ ({c with speed_mult := F32.finite t} : Control).write_reg
          = ({c with speed_mult := F32.finite 1} : Control).write_reg :=
  ⟨rfl, rfl⟩

/-- C8 witness: speed_mult values -1 and 2 on the COAST preset. -/
theorem claim_C8_witness :
    ({Control.COAST with speed_mult := F32.finite (-1)} : Control).write_reg
        = ({Control.COAST with speed_mult := F32.finite 0} : Control).write_reg
      ∧ ({Control.COAST with speed_mult := F32.finite 2} : Control).write_reg
          = ({Control.COAST with speed_mult := F32.finite 1} : Control).write_reg :=
  claim_C8 Control.COAST (-1) 2 (by decide) (by decide)

/-- C9: two Control values agreeing on in1, in2 and vout but differing in
speed_mult perform the identical transport transaction: the same encoded
byte, the same rpi write program and the same embedded write program. -/
theorem claim_C9 (c₁ c₂ : Control) (chip_addr : Nat)
    (h1 : c₁.in1 = c₂.in1) (h2 : c₁.in2 = c₂.in2) (hv : c₁.vout = c₂.vout) :
    c₁.write_reg = c₂.write_reg
      ∧ c₁.write_rpi = c₂.write_rpi
      ∧ c₁.write_embedded chip_addr = c₂.write_embedded chip_addr := by
  have he : c₁.voltage_enc = c₂.voltage_enc := by
    unfold Control.voltage_enc
    rw [hv]
  have hwr := Control.write_reg_congr c₁ c₂ h1 h2 he
  refine ⟨hwr, ?_, ?_⟩
  · unfold Control.write_rpi
    rw [hwr]
  · unfold Control.write_embedded
    rw [hwr]

/-- C9 witness: the COAST preset against a copy whose speed_mult is 0
instead of 1, with chip address 0x60. -/
theorem claim_C9_witness :
    Control.COAST.write_reg
        = ({Control.COAST with speed_mult := F32.finite 0} : Control).write_reg
      ∧ Control.COAST.write_rpi
          = ({Control.COAST with speed_mult := F32.finite 0} : Control).write_rpi
      ∧ Control.COAST.write_embedded 0x60
          = ({Control.COAST with speed_mult := F32.finite 0} : Control).write_embedded 0x60 :=
  claim_C9 Control.COAST ({Control.COAST with speed_mult := F32.finite 0}) 0x60 rfl rfl rfl

/-- C10: for every modelled f32 vout input (including NaN and the two
infinities) the Control encoding is a total function: the voltage code is at
most 63, shifting it left by 2 never overflows the byte (the mod-256 u8
wrap is the identity), the encoded byte is below 256, and bits 1:0 of the
encoded byte always equal in2 and in1. -/
theorem claim_C10 (c : Control) :
    c.voltage_enc ≤ 63
      ∧ (c.voltage_enc <<< 2) % 256 = c.voltage_enc <<< 2
      ∧ c.write_reg < 256
      ∧ c.write_reg.testBit 1 = c.in2
      ∧ c.write_reg.testBit 0 = c.in1 := by
  have he := c.voltage_enc_le
  refine ⟨he, ?_, ?_, Control.write_reg_testBit1 c, Control.write_reg_testBit0 c⟩
  · apply Nat.mod_eq_of_lt
    rw [Nat.shiftLeft_eq]
    norm_num
    omega
  · rw [Control.write_reg_eq]
    split_ifs <;> omega
